import Mathlib

/-!
Verification development for the kad.arbitr.ru harvester
(`PuppeteerParser` in `src/parser/src/core/cookie_extractor_main.js` and
`CookieExtractor` in the unnamed cookie-extractor module).

The JavaScript is embedded shallowly: dates are day numbers (`Nat`),
JS strings are Lean `String`s, the browser/portal is an oracle record
(`Portal`), and the side effects the claims speak about (search requests,
the ledger write) are recorded as an explicit event trace.  Helpers model
the JS semantics the code relies on: `toLowerCase` (ASCII + Cyrillic),
`String.prototype.includes`, and truthiness of optional string values.
-/

/-- JS `toLowerCase` on one character, for the ranges the program's data uses:
ASCII letters and Cyrillic (`А`–`Я` → `а`–`я`, `Ё` → `ё`). -/
def jsCharLower (c : Char) : Char :=
  if c = 'Ё' then 'ё'
  else if 'А' ≤ c ∧ c ≤ 'Я' then Char.ofNat (c.toNat + 32)
  else c.toLower

/-- JS `String.prototype.toLowerCase`. -/
def jsToLower (s : String) : String :=
  String.mk (s.toList.map jsCharLower)

/-- JS `haystack.includes(needle)`: substring test. -/
def jsIncludes (haystack needle : String) : Bool :=
  haystack.toList.tails.any (fun t => needle.toList.isPrefixOf t)

/-- JS truthiness of an optional string value (`undefined`/`null` and the
empty string are falsy). -/
def jsTruthy : Option String → Bool
  | none => false
  | some s => !s.isEmpty

/-- One row of the portal's search response (`response.data[i]`):
`{CaseNumber, Title, Date, DocumentUrl}`.  `DocumentUrl` is optional because
the code tests it for truthiness before downloading. -/
structure Doc where
  caseNumber : String
  title : String
  date : String
  documentUrl : Option String
deriving DecidableEq

/-- One element the run pushes onto `results`
(`{caseNumber, title, date, url, filepath}`). -/
structure Entry where
  caseNumber : String
  title : String
  date : String
  url : String
  filepath : String
deriving DecidableEq

/-- The hardcoded exclusion keywords of `processDateRange`. -/
def excludeKeywords : List String :=
  ["перенос", "отложение", "назначение", "включение в реестр"]

/-- The hardcoded inclusion keywords of `processDateRange`. -/
def includeKeywords : List String :=
  ["решение", "кассация", "определение"]

/-- A classification decision for one search result. -/
inductive Decision where
  | included
  | excluded
deriving DecidableEq

/-- The keyword filter of `processDateRange` (lines 674–690):
`text = (caseNumber + " " + title).toLowerCase()`; a document matching any
exclude keyword is skipped, else one matching any include keyword is taken,
else it is skipped. -/
def classify (exKs inKs : List String) (caseNumber title : String) : Decision :=
  let text := jsToLower (caseNumber ++ " " ++ title)
  if exKs.any (fun k => jsIncludes text k) then Decision.excluded
  else if inKs.any (fun k => jsIncludes text k) then Decision.included
  else Decision.excluded

/-- An HTTP response of the portal's `fetch`: status code and the parsed
JSON body's `data` field (`none` when the body has no `data` array). -/
structure HttpResp where
  status : Nat
  body : Option (List Doc)
deriving DecidableEq

/-- `PuppeteerParser.searchDocuments`: the in-page `fetch` either fails
(timeout / network error, the `none` case) or yields a response; a non-2xx
status throws `HTTP <status>` (`response.ok` is status 200–299), a 2xx
response returns the parsed JSON. -/
def searchDocuments : Option HttpResp → Except String (Option (List Doc))
  | none => Except.error "timeout"
  | some r =>
    if 200 ≤ r.status ∧ r.status < 300 then Except.ok r.body
    else Except.error ("HTTP " ++ toString r.status)

/-- The external world of a run: the outcome of the search request for a
given `(DateFrom, DateTo, Page)` triple, and of `downloadPDF` for a given
URL (`none` when the download fails and returns `null`). -/
structure Portal where
  fetch : Nat → Nat → Nat → Option HttpResp
  download : String → Option String

/-- Observable actions of a run: one search request (`DateFrom`, `DateTo`,
`Page`), or one write of the full ledger to `metadata.json` carrying
`total_documents`. -/
inductive Event where
  | request : Nat → Nat → Nat → Event
  | flushLedger : Nat → Event
deriving DecidableEq

/-- `true` exactly on ledger writes. -/
def Event.isFlush : Event → Bool
  | .flushLedger _ => true
  | _ => false

/-- The `(DateFrom, DateTo, Page)` of a search request event. -/
def requestTriple : Event → Option (Nat × Nat × Nat)
  | .request f t p => some (f, t, p)
  | _ => none

/-- The page numbers of the search request events in a trace. -/
def pageNumbers (evs : List Event) : List Nat :=
  evs.filterMap (fun ev => match ev with
    | .request _ _ p => some p
    | _ => none)

/-- What one document of a response page contributes to `results` in
`processDateRange` (lines 674–707): skipped when excluded, when no include
keyword matches, when `DocumentUrl` is falsy, or when the download fails;
otherwise one entry. -/
def docEntry (portal : Portal) (d : Doc) : Option Entry :=
  match classify excludeKeywords includeKeywords d.caseNumber d.title with
  | Decision.excluded => none
  | Decision.included =>
    if jsTruthy d.documentUrl then
      match portal.download (d.documentUrl.getD "") with
      | some fp =>
        some { caseNumber := d.caseNumber, title := d.title, date := d.date,
               url := d.documentUrl.getD "", filepath := fp }
      | none => none
    else none

/-- The inner `for (const doc of response.data)` loop: each document is
classified and, when included with a truthy URL and a successful download,
pushed onto `results`. -/
def processDocs (portal : Portal) : List Doc → List Entry
  | [] => []
  | d :: ds =>
    match docEntry portal d with
    | some en => en :: processDocs portal ds
    | none => processDocs portal ds

/-- The `for (let page = 1; page <= maxPages; page++)` loop of one window
(lines 661–712), with `rem` pages left to try.  A thrown search error ends
the window (the surrounding `catch` only logs), a response without data or
with an empty `data` array ends pagination; otherwise the page's documents
are processed and the next page is requested.  Returns the entries pushed
and the trace of requests made. -/
def processPages (portal : Portal) (f t : Nat) : Nat → Nat → List Entry × List Event
  | 0, _ => ([], [])
  | rem + 1, page =>
    match searchDocuments (portal.fetch f t page) with
    | Except.error _ => ([], [Event.request f t page])
    | Except.ok none => ([], [Event.request f t page])
    | Except.ok (some []) => ([], [Event.request f t page])
    | Except.ok (some (d :: ds)) =>
      let es := processDocs portal (d :: ds)
      let next := processPages portal f t rem (page + 1)
      (es ++ next.1, Event.request f t page :: next.2)

/-- The `while (currentDate <= endDateObj)` loop of `processDateRange`
(lines 634–719): each iteration handles the window
`[currentDate, currentDate + 2]` and then advances `currentDate` by two
days.  `gas` bounds the iterations (any `gas ≥ endD + 1 - cur` gives the
loop's behaviour). -/
def processWindows (portal : Portal) (endD maxPages : Nat) : Nat → Nat → List Entry × List Event
  | 0, _ => ([], [])
  | gas + 1, cur =>
    if cur ≤ endD then
      let w := processPages portal cur (cur + 2) maxPages 1
      let rest := processWindows portal endD maxPages gas (cur + 2)
      (w.1 ++ rest.1, w.2 ++ rest.2)
    else ([], [])

/-- `PuppeteerParser.processDateRange` (lines 624–731): run all windows,
then write `metadata.json` once with the accumulated `results`.  Dates are
day numbers. -/
def processDateRange (portal : Portal) (startD endD maxPages : Nat) : List Entry × List Event :=
  let run := processWindows portal endD maxPages (endD + 1 - startD) startD
  (run.1, run.2 ++ [Event.flushLedger run.1.length])

/-- The date windows the loop of `processDateRange` visits, starting at
`cur`: `(currentDate, currentDate + 2)` pairs until `currentDate` passes
`endD`. -/
def windowsGo (endD : Nat) : Nat → Nat → List (Nat × Nat)
  | 0, _ => []
  | gas + 1, cur =>
    if cur ≤ endD then (cur, cur + 2) :: windowsGo endD gas (cur + 2) else []

/-- The list of `(DateFrom, DateTo)` windows a run over `[startD, endD]`
uses (the window arithmetic of lines 631–638 and 718). -/
def windows (startD endD : Nat) : List (Nat × Nat) :=
  windowsGo endD (endD + 1 - startD) startD

/-- The validation report `CookieExtractor.validateCookies` builds:
`{isValid, errors, warnings, foundCookies, criticalCookies}`; an entry of
`criticalCookies` is `(name, description, truncated value)`. -/
structure Validation where
  isValid : Bool
  errors : List String
  warnings : List String
  foundCookies : List String
  criticalCookies : List (String × String × String)
deriving DecidableEq

/-- The `criticalCookies` table of `validateCookies`, in the object's
insertion order. -/
def criticalCookieTable : List (String × String) :=
  [("pr_fp", "Основной fingerprint cookie"),
   ("wasm", "WebAssembly токен (опциональный)"),
   ("PHPSESSID", "PHP сессия (опциональный)"),
   ("ASP.NET_SessionId", "ASP.NET сессия (опциональный)")]

/-- `CookieExtractor.validateCookies` (unnamed part, lines 292–334) over the
extracted cookie map (an association list of name–value pairs).  Each entry
of the critical-cookie table with a truthy value is recorded; a falsy
`pr_fp` sets `isValid := false` and appends an error naming it; a falsy
optional cookie appends a warning; fewer than five cookies in total appends
a further warning. -/
def validateCookies (cookies : List (String × String)) : Validation :=
  let start : Validation :=
    { isValid := true, errors := [], warnings := [],
      foundCookies := cookies.map Prod.fst, criticalCookies := [] }
  let afterCritical := criticalCookieTable.foldl (fun v nd =>
    if jsTruthy (cookies.lookup nd.1) then
      { v with criticalCookies := v.criticalCookies ++
          [(nd.1, nd.2, ((cookies.lookup nd.1).getD "").take 20 ++ "...")] }
    else if nd.1 = "pr_fp" then
      { v with isValid := false,
               errors := v.errors ++
                 ["Отсутствует критически важный cookie: " ++ nd.1 ++ " (" ++ nd.2 ++ ")"] }
    else
      { v with warnings := v.warnings ++
          ["Отсутствует опциональный cookie: " ++ nd.1 ++ " (" ++ nd.2 ++ ")"] }) start
  if cookies.length < 5 then
    { afterCritical with warnings := afterCritical.warnings ++
        ["Мало cookies (" ++ toString cookies.length ++ "), возможно anti-bot защита активна"] }
  else afterCritical

/-- A date argument of `CookieExtractor.getApiDates`: absent (`null`), a
string `new Date(...)` cannot parse, or a parsed date (a day number). -/
inductive DateInput where
  | missing
  | invalid
  | valid : Int → DateInput

/-- The inner `formatDate` of `getApiDates`: `null` for an absent or
unparseable date, else the date itself (`toISOString` keeps date order, so
the formatted string is modelled by its day number). -/
def formatDate : DateInput → Option Int
  | DateInput.missing => none
  | DateInput.invalid => none
  | DateInput.valid t => some t

/-- `CookieExtractor.getApiDates` (unnamed part, lines 23–51): format each
argument, fall back on `defaultFrom` (January 1 of the current year,
`janFirst`) and `defaultTo` (`today`), and swap the pair when the from-date
is later than the to-date. -/
def getApiDates (today janFirst : Int) (dateFrom dateTo : DateInput) : Option Int × Option Int :=
  let fromDate := match formatDate dateFrom with
    | some x => some x
    | none => formatDate (DateInput.valid janFirst)
  let toDate := match formatDate dateTo with
    | some x => some x
    | none => formatDate (DateInput.valid today)
  match fromDate, toDate with
  | some f, some t => if f > t then (some t, some f) else (some f, some t)
  | f, t => (f, t)

/-- The date a `getApiDates` argument contributes after defaulting. -/
def effectiveDate (dflt : Int) : DateInput → Int
  | DateInput.valid t => t
  | _ => dflt

/-- What `PuppeteerParser.getStats` returns:
`{total_documents, last_update}`. -/
structure Stats where
  total_documents : Int
  last_update : Option String
deriving DecidableEq

/-- The `metadata.json` content `getStats` may find: either field of the
parsed object may be missing. -/
structure Metadata where
  total_documents : Option Int
  processed_at : Option String
deriving DecidableEq

/-- The state of `metadata.json` when `getStats` runs. -/
inductive MetadataFile where
  | absent
  | unreadable
  | unparsable
  | parsed : Metadata → MetadataFile

/-- JS `x || null` on an optional string: the empty string is falsy. -/
def jsOrNull : Option String → Option String
  | none => none
  | some s => if s.isEmpty then none else some s

/-- `PuppeteerParser.getStats` (lines 736–754): a missing file returns the
zero stats; a read or parse failure is caught and returns the zero stats; a
parsed file returns `total_documents || 0` and `processed_at || null`. -/
def getStats : MetadataFile → Stats
  | MetadataFile.absent => { total_documents := 0, last_update := none }
  | MetadataFile.unreadable => { total_documents := 0, last_update := none }
  | MetadataFile.unparsable => { total_documents := 0, last_update := none }
  | MetadataFile.parsed m =>
    { total_documents := m.total_documents.getD 0,
      last_update := jsOrNull m.processed_at }

/-- The `data` payload a command's JSON output can carry. -/
inductive DataVal where
  | searchResult : Option (List Doc) → DataVal
  | rangeResult : List Entry → DataVal
  | statsResult : Stats → DataVal
deriving DecidableEq

/-- One JSON object `main` prints:
`{success, data?, error?, message?}`. -/
structure Output where
  success : Bool
  data : Option DataVal := none
  error : Option String := none
  message : Option String := none
deriving DecidableEq

/-- The command arguments `parseArgs` hands to `main` (the search params are
kept abstract as the raw argument value). -/
structure Args where
  cookies_file : Option String := none
  params : Option String := none
  start_date : Option String := none
  end_date : Option String := none
  max_pages : Option Nat := none

/-- The parser operations `main` invokes, as oracles: `init` and the two
search operations may throw; `loadCookies` and `getStats` catch internally
and always return. -/
structure Ops where
  init : Except String Unit
  loadCookies : String → Bool
  searchDocuments : String → Except String (Option (List Doc))
  processDateRange : String → String → Nat → Except String (List Entry)
  getStats : Stats

/-- `parseInt(args.max_pages) || 40`: absent or zero falls back to 40. -/
def effectiveMaxPages : Option Nat → Nat
  | none => 40
  | some n => if n = 0 then 40 else n

/-- The `main` dispatcher of `cookie_extractor_main.js` (lines 141–258): the
JSON objects it prints for one invocation.  Every `switch` branch prints
exactly one object; a thrown error reaches the surrounding `catch`, which
prints one error object. -/
def mainRun (command : String) (args : Args) (ops : Ops) : List Output :=
  if command = "init" then
    match ops.init with
    | Except.error e => [{ success := false, error := some e }]
    | Except.ok _ => [{ success := true, message := some "Браузер инициализирован" }]
  else if command = "loadCookies" then
    match ops.init with
    | Except.error e => [{ success := false, error := some e }]
    | Except.ok _ =>
      if jsTruthy args.cookies_file then
        let ok := ops.loadCookies (args.cookies_file.getD "")
        [{ success := ok,
           message := some (if ok then "Cookies загружены" else "Ошибка загрузки cookies") }]
      else [{ success := false, error := some "Не указан файл cookies" }]
  else if command = "searchDocuments" then
    match ops.init with
    | Except.error e => [{ success := false, error := some e }]
    | Except.ok _ =>
      if jsTruthy args.params then
        match ops.searchDocuments (args.params.getD "") with
        | Except.error e => [{ success := false, error := some e }]
        | Except.ok r => [{ success := true, data := some (DataVal.searchResult r) }]
      else [{ success := false, error := some "Не указаны параметры поиска" }]
  else if command = "processDateRange" then
    match ops.init with
    | Except.error e => [{ success := false, error := some e }]
    | Except.ok _ =>
      if jsTruthy args.start_date && jsTruthy args.end_date then
        match ops.processDateRange (args.start_date.getD "") (args.end_date.getD "")
            (effectiveMaxPages args.max_pages) with
        | Except.error e => [{ success := false, error := some e }]
        | Except.ok rs => [{ success := true, data := some (DataVal.rangeResult rs) }]
      else [{ success := false, error := some "Не указаны даты начала и окончания" }]
  else if command = "getStats" then
    [{ success := true, data := some (DataVal.statsResult ops.getStats) }]
  else if command = "close" then
    [{ success := true, message := some "Браузер закрыт" }]
  else
    [{ success := false, error := some ("Неизвестная команда: " ++ command) }]

/-- A portal whose every search returns an empty 2xx page (used to run the
model on concrete inputs). -/
def portalEmpty : Portal :=
  { fetch := fun _ _ _ => some { status := 200, body := some [] },
    download := fun _ => none }

/-- A portal whose every search fails with HTTP 500. -/
def portal500 : Portal :=
  { fetch := fun _ _ _ => some { status := 500, body := none },
    download := fun _ => none }

/-- A concrete includable search result (its text contains the include
keyword "решение" once lowercased). -/
def docRulingEx : Doc :=
  { caseNumber := "А84-1", title := "Решение суда", date := "2024-01-01",
    documentUrl := some "http://x/doc.pdf" }

/-- A portal whose first page of every window holds the same includable
document twice (the same `DocumentUrl`), and whose downloads succeed. -/
def portalDup : Portal :=
  { fetch := fun _ _ p =>
      if p = 1 then some { status := 200, body := some [docRulingEx, docRulingEx] }
      else some { status := 200, body := some [] },
    download := fun _ => some "/app/docs/doc.pdf" }

/-- A mocked per-page response table: pages 1 and 2 hold one document, page
3 and beyond are empty. -/
def pagesEmptyAt3 (p : Nat) : List Doc :=
  if p < 3 then [docRulingEx] else []

/-- A portal serving `pagesEmptyAt3` with 2xx status on every window. -/
def portalEmptyAt3 : Portal :=
  { fetch := fun _ _ p => some { status := 200, body := some (pagesEmptyAt3 p) },
    download := fun _ => some "/app/docs/doc.pdf" }

/-! ### The window loop -/

theorem windowsGo_of_gt (e gas cur : Nat) (h : e < cur) : windowsGo e gas cur = [] := by
  cases gas with
  | zero => rfl
  | succ g => simp only [windowsGo, if_neg (by omega : ¬ cur ≤ e)]

theorem windowsGo_closed (e : Nat) :
    ∀ gas cur, e + 1 - cur ≤ gas → cur ≤ e →
      windowsGo e gas cur =
        (List.range ((e - cur) / 2 + 1)).map (fun i => (cur + 2 * i, cur + 2 * i + 2)) := by
  intro gas
  induction gas with
  | zero => intro cur h1 h2; omega
  | succ g ih =>
    intro cur h1 h2
    simp only [windowsGo, if_pos h2]
    by_cases hc : cur + 2 ≤ e
    · rw [ih (cur + 2) (by omega) hc]
      have hk : (e - cur) / 2 + 1 = ((e - (cur + 2)) / 2 + 1) + 1 := by omega
      conv_rhs => rw [hk, List.range_succ_eq_map, List.map_cons, List.map_map]
      rw [List.cons_eq_cons]
      refine ⟨by norm_num, List.map_congr_left ?_⟩
      intro i _
      simp only [Function.comp_apply, Nat.succ_eq_add_one, Prod.mk.injEq]
      omega
    · rw [windowsGo_of_gt e g (cur + 2) (by omega)]
      have hk : (e - cur) / 2 + 1 = 1 := by omega
      rw [hk]
      norm_num [List.range_succ]

theorem windows_closed (s e : Nat) (h : s ≤ e) :
    windows s e = (List.range ((e - s) / 2 + 1)).map (fun i => (s + 2 * i, s + 2 * i + 2)) :=
  windowsGo_closed e (e + 1 - s) s (le_refl _) h

/-- Claim C1 (amended): for startDate ≤ endDate, `processDateRange` visits
the consecutive windows `window[i] = [start + i·W, start + (i+1)·W]` with
fixed width `W = 2` days, for `0 ≤ i ≤ (end−start)/2`: the windows are
contiguous, ordered by ascending date, each starts no earlier than
startDate and spans exactly two days, and together they cover
`[startDate, endDate]` — but the final window's end is not clamped to
endDate: it always exceeds endDate (by at most two days). -/
theorem C1_window_partition (s e : Nat) (h : s ≤ e) :
    windows s e = (List.range ((e - s) / 2 + 1)).map (fun i => (s + 2 * i, s + 2 * i + 2)) ∧
    (∀ d, s ≤ d → d ≤ e → ∃ w ∈ windows s e, w.1 ≤ d ∧ d ≤ w.2) ∧
    (∀ w ∈ windows s e, s ≤ w.1 ∧ w.2 = w.1 + 2 ∧ w.2 ≤ e + 2) ∧
    (∃ w ∈ windows s e, e < w.2) := by
  have hcf := windows_closed s e h
  refine ⟨hcf, ?_, ?_, ?_⟩
  · intro d hd1 hd2
    refine ⟨(s + 2 * ((d - s) / 2), s + 2 * ((d - s) / 2) + 2), ?_, by omega, by omega⟩
    rw [hcf]
    exact List.mem_map_of_mem _ (List.mem_range.mpr (by omega))
  · intro w hw
    rw [hcf] at hw
    obtain ⟨i, hi, rfl⟩ := List.mem_map.mp hw
    rw [List.mem_range] at hi
    exact ⟨by omega, rfl, by omega⟩
  · refine ⟨(s + 2 * ((e - s) / 2), s + 2 * ((e - s) / 2) + 2), ?_, by omega⟩
    rw [hcf]
    exact List.mem_map_of_mem _ (List.mem_range.mpr (by omega))

/-- Witness for C1: at `[0, 3]` the theorem applies and yields a window
whose end exceeds the requested end date. -/
theorem C1_window_partition_w : ∃ w ∈ windows 0 3, 3 < w.2 :=
  (C1_window_partition 0 3 (by decide)).2.2.2

/-- Counterexample to C1 as stated: for the range `[0, 1]` the single
window produced is `[0, 2]`, whose end date exceeds the requested
endDate 1; the claimed clamping `min(start + (i+1)·W, endDate)` does not
happen. -/
theorem C1_window_end_cex : ∃ w ∈ windows 0 1, 1 < w.2 := by decide

/-! ### The page loop's trace -/

theorem processPages_events_shape (portal : Portal) (f t : Nat) :
    ∀ rem page, ∃ n, n ≤ rem ∧
      (processPages portal f t rem page).2 = (List.range' page n).map (Event.request f t) := by
  intro rem
  induction rem with
  | zero => intro page; exact ⟨0, le_refl _, rfl⟩
  | succ rem ih =>
    intro page
    simp only [processPages]
    split
    · exact ⟨1, by omega, by simp [List.range'_succ]⟩
    · exact ⟨1, by omega, by simp [List.range'_succ]⟩
    · exact ⟨1, by omega, by simp [List.range'_succ]⟩
    · obtain ⟨n, hn, he⟩ := ih (page + 1)
      exact ⟨n + 1, by omega, by simp [List.range'_succ, he]⟩

theorem processPages_no_flush (portal : Portal) (f t rem page n : Nat) :
    Event.flushLedger n ∉ (processPages portal f t rem page).2 := by
  obtain ⟨m, -, he⟩ := processPages_events_shape portal f t rem page
  rw [he]
  simp

theorem processPages_page1_mem (portal : Portal) (f t rem page : Nat) (h : 0 < rem) :
    Event.request f t page ∈ (processPages portal f t rem page).2 := by
  cases rem with
  | zero => omega
  | succ rem =>
    simp only [processPages]
    split <;> simp

theorem processWindows_no_flush (portal : Portal) (e mp : Nat) :
    ∀ gas cur n, Event.flushLedger n ∉ (processWindows portal e mp gas cur).2 := by
  intro gas
  induction gas with
  | zero => intro cur n; simp [processWindows]
  | succ g ih =>
    intro cur n
    simp only [processWindows]
    split
    · simp only [List.mem_append, not_or]
      exact ⟨processPages_no_flush portal cur (cur + 2) mp 1 n, ih (cur + 2) n⟩
    · simp

theorem processPages_triples (portal : Portal) (f t : Nat) (rem page : Nat) :
    ∃ n, n ≤ rem ∧
      (processPages portal f t rem page).2.filterMap requestTriple =
        (List.range' page n).map (fun p => (f, t, p)) := by
  obtain ⟨n, hn, he⟩ := processPages_events_shape portal f t rem page
  refine ⟨n, hn, ?_⟩
  rw [he, List.filterMap_map]
  show List.filterMap (some ∘ fun p => (f, t, p)) (List.range' page n) = _
  rw [List.filterMap_eq_map]

theorem processWindows_req_ge (portal : Portal) (e mp : Nat) :
    ∀ gas cur x, x ∈ (processWindows portal e mp gas cur).2.filterMap requestTriple →
      cur ≤ x.1 := by
  intro gas
  induction gas with
  | zero => intro cur x hx; simp [processWindows] at hx
  | succ g ih =>
    intro cur x hx
    simp only [processWindows] at hx
    split at hx
    · rw [List.filterMap_append, List.mem_append] at hx
      rcases hx with hx | hx
      · obtain ⟨n, -, he⟩ := processPages_triples portal cur (cur + 2) mp 1
        rw [he] at hx
        obtain ⟨p, -, rfl⟩ := List.mem_map.mp hx
        exact le_refl _
      · exact le_trans (by omega) (ih (cur + 2) x hx)
    · simp at hx

theorem processWindows_req_nodup (portal : Portal) (e mp : Nat) :
    ∀ gas cur, ((processWindows portal e mp gas cur).2.filterMap requestTriple).Nodup := by
  intro gas
  induction gas with
  | zero => intro cur; simp [processWindows]
  | succ g ih =>
    intro cur
    simp only [processWindows]
    split
    · rw [List.filterMap_append, List.nodup_append]
      obtain ⟨n, -, he⟩ := processPages_triples portal cur (cur + 2) mp 1
      refine ⟨?_, ih (cur + 2), ?_⟩
      · rw [he]
        exact (List.nodup_range' _ _).map (fun a b hab => by simpa using hab)
      · rw [he]
        intro x hx hx'
        obtain ⟨p, -, rfl⟩ := List.mem_map.mp hx
        have := processWindows_req_ge portal e mp g (cur + 2) _ hx'
        omega
    · simp

theorem processWindows_window_req (portal : Portal) (e mp : Nat) (hmp : 0 < mp) :
    ∀ gas cur w, w ∈ windowsGo e gas cur →
      Event.request w.1 w.2 1 ∈ (processWindows portal e mp gas cur).2 := by
  intro gas
  induction gas with
  | zero => intro cur w hw; simp [windowsGo] at hw
  | succ g ih =>
    intro cur w hw
    simp only [windowsGo] at hw
    simp only [processWindows]
    by_cases h : cur ≤ e
    · rw [if_pos h] at hw ⊢
      rw [List.mem_cons] at hw
      rcases hw with rfl | hw
      · exact List.mem_append_left _ (processPages_page1_mem portal cur (cur + 2) mp 1 hmp)
      · exact List.mem_append_right _ (ih (cur + 2) w hw)
    · rw [if_neg h] at hw
      simp at hw

/-! ### The ledger -/

/-- Claim C2 (amended): the run appends to its ledger unconditionally —
there is no `sourceUrl` idempotence check.  Each document of a response
page contributes independently of the entries already pushed
(`processDocs` is a pointwise `filterMap`), so two documents sharing the
same `sourceUrl` produce two ledger entries, and the persisted ledger can
contain duplicate `sourceUrl`s. -/
theorem C2_append_no_dedup (portal : Portal) :
    (∀ ds, processDocs portal ds = ds.filterMap (docEntry portal)) ∧
    (∀ d en, docEntry portal d = some en → processDocs portal [d, d] = [en, en]) := by
  have hfm : ∀ ds, processDocs portal ds = ds.filterMap (docEntry portal) := by
    intro ds
    induction ds with
    | nil => rfl
    | cons d ds ih =>
      rw [List.filterMap_cons]
      simp only [processDocs]
      split <;> simp_all
  refine ⟨hfm, ?_⟩
  intro d en h
  rw [hfm]
  simp [List.filterMap_cons, h]

/-- Counterexample to C2 as stated: a run over one window whose first page
holds the same document (hence the same `sourceUrl`) twice ends with two
ledger entries carrying that `sourceUrl`, not one. -/
theorem C2_dup_cex :
    (processDateRange portalDup 0 0 5).1.map Entry.url =
      ["http://x/doc.pdf", "http://x/doc.pdf"] ∧
    (processDateRange portalDup 0 0 5).1.length = 2 := by decide

/-- Claim C4 (amended): the run writes the ledger to `metadata.json`
exactly once, at the very end of the run after all windows complete,
carrying the full accumulated `results`; no flush happens after individual
windows. -/
theorem C4_single_flush (portal : Portal) (s e mp : Nat) :
    ∃ evs, (processDateRange portal s e mp).2 =
        evs ++ [Event.flushLedger (processDateRange portal s e mp).1.length] ∧
      ∀ n, Event.flushLedger n ∉ evs := by
  refine ⟨(processWindows portal e mp (e + 1 - s) s).2, rfl, ?_⟩
  intro n
  exact processWindows_no_flush portal e mp (e + 1 - s) s n

/-- Counterexample to C4 as stated: a run over `[0, 2]` completes two
windows but its trace holds a single ledger write, as its last event, so
the ledger is not flushed after every completed window. -/
theorem C4_flush_cex :
    (windows 0 2).length = 2 ∧
    ((processDateRange portalEmpty 0 2 5).2.filter Event.isFlush).length = 1 ∧
    (processDateRange portalEmpty 0 2 5).2.getLast? = some (Event.flushLedger 0) := by decide

/-! ### Error classification and pagination -/

theorem processPages_mem_char (portal : Portal) (f t : Nat) (pages : Nat → List Doc)
    (hp : ∀ p, portal.fetch f t p = some { status := 200, body := some (pages p) }) :
    ∀ rem page p, p ∈ pageNumbers (processPages portal f t rem page).2 ↔
      (page ≤ p ∧ p < page + rem ∧ ∀ q, page ≤ q → q < p → pages q ≠ []) := by
  intro rem
  induction rem with
  | zero =>
    intro page p
    simp only [processPages, pageNumbers, List.filterMap_nil, List.not_mem_nil, false_iff]
    omega
  | succ rem ih =>
    intro page p
    have hsd : searchDocuments (portal.fetch f t page) = Except.ok (some (pages page)) := by
      rw [hp page]
      simp [searchDocuments]
    simp only [processPages]
    rw [hsd]
    cases hpp : pages page with
    | nil =>
      simp only [pageNumbers, List.filterMap_cons, List.filterMap_nil, List.mem_singleton]
      constructor
      · rintro rfl
        exact ⟨le_refl _, by omega, fun q h1 h2 => by omega⟩
      · rintro ⟨h1, h2, h3⟩
        by_contra hne
        exact h3 page (le_refl _) (by omega) hpp
    | cons d ds =>
      simp only [pageNumbers, List.filterMap_cons]
      simp only [List.mem_cons]
      have ihr := ih (page + 1) p
      simp only [pageNumbers] at ihr
      rw [ihr]
      constructor
      · rintro (rfl | ⟨h1, h2, h3⟩)
        · exact ⟨le_refl _, by omega, fun q hq1 hq2 => by omega⟩
        · refine ⟨by omega, by omega, ?_⟩
          intro q hq1 hq2
          rcases Nat.eq_or_lt_of_le hq1 with rfl | hlt
          · rw [hpp]; simp
          · exact h3 q (by omega) hq2
      · rintro ⟨h1, h2, h3⟩
        rcases Nat.eq_or_lt_of_le h1 with rfl | hlt
        · exact Or.inl rfl
        · exact Or.inr ⟨by omega, by omega, fun q hq1 hq2 => h3 q (by omega) hq2⟩

/-- Claim C3 (amended): a 2xx response is not an error — its parsed body is
returned, and a 2xx response with an empty `data` array ends the window's
pagination; but there is no retry logic: a timeout and any non-2xx status
(4xx and 5xx alike) make `searchDocuments` throw, no request is ever issued
twice in a run (no retries, with or without backoff), the window in which
the error was thrown is abandoned, and the run continues — every window
still gets its first-page request. -/
theorem C3_error_handling :
    (∀ st body, 200 ≤ st → st < 300 →
        searchDocuments (some { status := st, body := body }) = Except.ok body) ∧
    (∀ st body, st < 200 ∨ 300 ≤ st →
        searchDocuments (some { status := st, body := body }) =
          Except.error ("HTTP " ++ toString st)) ∧
    searchDocuments none = Except.error "timeout" ∧
    (∀ portal f t rem page, searchDocuments (portal.fetch f t page) = Except.ok (some []) →
        processPages portal f t (rem + 1) page = ([], [Event.request f t page])) ∧
    (∀ portal s e mp, ((processDateRange portal s e mp).2.filterMap requestTriple).Nodup) ∧
    (∀ portal s e mp w, w ∈ windows s e → 0 < mp →
        Event.request w.1 w.2 1 ∈ (processDateRange portal s e mp).2) := by
  refine ⟨?_, ?_, rfl, ?_, ?_, ?_⟩
  · intro st body h1 h2
    simp only [searchDocuments]
    rw [if_pos ⟨h1, h2⟩]
  · intro st body h
    simp only [searchDocuments]
    rw [if_neg (by omega)]
  · intro portal f t rem page h
    simp only [processPages]
    rw [h]
  · intro portal s e mp
    have h := processWindows_req_nodup portal e mp (e + 1 - s) s
    simpa [processDateRange, List.filterMap_append, requestTriple] using h
  · intro portal s e mp w hw hmp
    simp only [windows] at hw
    simp only [processDateRange]
    exact List.mem_append_left _
      (processWindows_window_req portal e mp hmp (e + 1 - s) s w hw)

/-- Counterexample to C3 as stated: with a portal that always answers
HTTP 500 (a retryable status per the claim) and room for three attempts
(`maxPages = 3`), the run issues exactly one request and then moves on:
the transient failure is not retried at all. -/
theorem C3_no_retry_cex :
    portal500.fetch 0 2 1 = some { status := 500, body := none } ∧
    searchDocuments (portal500.fetch 0 2 1) = Except.error "HTTP 500" ∧
    (processDateRange portal500 0 0 3).2 = [Event.request 0 2 1, Event.flushLedger 0] :=
  ⟨rfl, rfl, by decide⟩

/-- Claim C7 (confirmed): within a window whose every request gets a 2xx
response, the pages requested are exactly `1, 2, …, k`, in order: a page is
requested exactly when it is within the `maxPages` cap and all earlier
pages were non-empty — pagination stops at the first empty page or at the
cap. -/
theorem C7_pagination (portal : Portal) (f t mp : Nat) (pages : Nat → List Doc)
    (hp : ∀ p, portal.fetch f t p = some { status := 200, body := some (pages p) }) :
    (∀ p, p ∈ pageNumbers (processPages portal f t mp 1).2 ↔
        (1 ≤ p ∧ p ≤ mp ∧ ∀ q, 1 ≤ q → q < p → pages q ≠ [])) ∧
    (∃ n, n ≤ mp ∧ pageNumbers (processPages portal f t mp 1).2 = List.range' 1 n) := by
  constructor
  · intro p
    rw [processPages_mem_char portal f t pages hp mp 1 p]
    constructor
    · rintro ⟨h1, h2, h3⟩
      exact ⟨h1, by omega, h3⟩
    · rintro ⟨h1, h2, h3⟩
      exact ⟨h1, by omega, h3⟩
  · obtain ⟨n, hn, he⟩ := processPages_events_shape portal f t mp 1
    refine ⟨n, hn, ?_⟩
    rw [he]
    rw [pageNumbers, List.filterMap_map]
    show List.filterMap (some ∘ id) (List.range' 1 n) = List.range' 1 n
    rw [List.filterMap_eq_map, List.map_id]

/-- Witness for C7: with a mocked portal whose page 3 is the first empty
page and `maxPages = 40`, page 3 is requested and page 4 never is. -/
theorem C7_pagination_w :
    3 ∈ pageNumbers (processPages portalEmptyAt3 0 2 40 1).2 ∧
    4 ∉ pageNumbers (processPages portalEmptyAt3 0 2 40 1).2 := by
  have h := C7_pagination portalEmptyAt3 0 2 40 pagesEmptyAt3 (fun p => rfl)
  constructor
  · exact (h.1 3).mpr ⟨by omega, by omega, by intro q h1 h2; interval_cases q <;> decide⟩
  · intro hmem
    obtain ⟨-, -, hq⟩ := (h.1 4).mp hmem
    exact hq 3 (by omega) (by omega) (by decide)

/-! ### Classification -/

/-- Claim C6 (confirmed): the keyword filter normalizes
`text = lowercase(caseNumber + " " + title)` and decides in priority
order — any matching exclude keyword yields Excluded (even when an include
keyword also matches, since the include list is never consulted), else any
matching include keyword yields Included, else the result is Excluded
(default-deny). -/
theorem C6_keyword_priority (exKs inKs : List String) (caseNumber title : String) :
    ((∃ k ∈ exKs, jsIncludes (jsToLower (caseNumber ++ " " ++ title)) k = true) →
        classify exKs inKs caseNumber title = Decision.excluded) ∧
    ((∀ k ∈ exKs, jsIncludes (jsToLower (caseNumber ++ " " ++ title)) k = false) →
      (∃ k ∈ inKs, jsIncludes (jsToLower (caseNumber ++ " " ++ title)) k = true) →
        classify exKs inKs caseNumber title = Decision.included) ∧
    ((∀ k ∈ exKs, jsIncludes (jsToLower (caseNumber ++ " " ++ title)) k = false) →
      (∀ k ∈ inKs, jsIncludes (jsToLower (caseNumber ++ " " ++ title)) k = false) →
        classify exKs inKs caseNumber title = Decision.excluded) := by
  refine ⟨?_, ?_, ?_⟩
  · intro hex
    have : exKs.any (fun k => jsIncludes (jsToLower (caseNumber ++ " " ++ title)) k) = true :=
      List.any_eq_true.mpr hex
    simp only [classify]
    rw [if_pos this]
  · intro hex hin
    have h1 : exKs.any (fun k => jsIncludes (jsToLower (caseNumber ++ " " ++ title)) k) = false := by
      rw [List.any_eq_false]
      intro k hk
      simp [hex k hk]
    have h2 : inKs.any (fun k => jsIncludes (jsToLower (caseNumber ++ " " ++ title)) k) = true :=
      List.any_eq_true.mpr hin
    simp only [classify]
    rw [if_neg (by simp [h1]), if_pos h2]
  · intro hex hin
    have h1 : exKs.any (fun k => jsIncludes (jsToLower (caseNumber ++ " " ++ title)) k) = false := by
      rw [List.any_eq_false]
      intro k hk
      simp [hex k hk]
    have h2 : inKs.any (fun k => jsIncludes (jsToLower (caseNumber ++ " " ++ title)) k) = false := by
      rw [List.any_eq_false]
      intro k hk
      simp [hin k hk]
    simp only [classify]
    rw [if_neg (by simp [h1]), if_neg (by simp [h2])]

/-- The spec's first classification vector: a title holding the include
keyword "решение" (after lowercasing) and no exclude keyword is Included. -/
theorem classify_included_example :
    classify [] ["решение"] "" "Решение по делу №123" = Decision.included := by decide

/-- The spec's second classification vector with the code's hardcoded
lists: exclusion wins even when an include keyword also matches. -/
theorem classify_precedence_example :
    classify excludeKeywords includeKeywords "" "Решение о переносе" = Decision.excluded ∧
    jsIncludes (jsToLower "Решение о переносе") "решение" = true := by decide

/-! ### Session validation -/

/-- Claim C5 (amended): session validation returns `isValid = true` exactly
when the primary fingerprint token `pr_fp` is present with a non-empty
value (JS truthiness: a present-but-empty `pr_fp` is treated as missing),
regardless of which optional tokens are present; when `pr_fp` is absent or
empty, `isValid = false` and the errors list names that token; absent
optional tokens never contribute errors (they produce warnings only). -/
theorem C5_session_validation (cookies : List (String × String)) :
    ((validateCookies cookies).isValid = true ↔
        jsTruthy (cookies.lookup "pr_fp") = true) ∧
    (jsTruthy (cookies.lookup "pr_fp") = false →
        ∃ msg ∈ (validateCookies cookies).errors, jsIncludes msg "pr_fp" = true) ∧
    (jsTruthy (cookies.lookup "pr_fp") = true → (validateCookies cookies).errors = []) := by
  simp only [validateCookies, criticalCookieTable, List.foldl_cons, List.foldl_nil]
  by_cases h1 : jsTruthy (cookies.lookup "pr_fp") <;>
    by_cases h2 : jsTruthy (cookies.lookup "wasm") <;>
      by_cases h3 : jsTruthy (cookies.lookup "PHPSESSID") <;>
        by_cases h4 : jsTruthy (cookies.lookup "ASP.NET_SessionId") <;>
          by_cases h5 : cookies.length < 5 <;>
            simp [h1, h2, h3, h4, h5] <;> decide

/-- Counterexample to C5 as stated: a cookie map in which `pr_fp` is
present (with the empty-string value) is still rejected — `isValid` is
`false` although the primary token is present. -/
theorem C5_present_empty_cex :
    (List.lookup "pr_fp" [("pr_fp", "")]).isSome = true ∧
    (validateCookies [("pr_fp", "")]).isValid = false := by decide

/-! ### Date normalization -/

/-- Claim C9 (confirmed): `getApiDates` always returns a pair with
`DateFrom ≤ DateTo`: each argument is replaced by its default when missing
or unparseable (January 1 of the current year for the from-date, today for
the to-date), and the two effective dates are then returned in order —
swapped when the from-date is later than the to-date. -/
theorem C9_date_order (today janFirst : Int) (dateFrom dateTo : DateInput) :
    getApiDates today janFirst dateFrom dateTo =
      (some (min (effectiveDate janFirst dateFrom) (effectiveDate today dateTo)),
       some (max (effectiveDate janFirst dateFrom) (effectiveDate today dateTo))) ∧
    (∀ f t, getApiDates today janFirst dateFrom dateTo = (some f, some t) → f ≤ t) := by
  have hmain : getApiDates today janFirst dateFrom dateTo =
      (some (min (effectiveDate janFirst dateFrom) (effectiveDate today dateTo)),
       some (max (effectiveDate janFirst dateFrom) (effectiveDate today dateTo))) := by
    cases dateFrom <;> cases dateTo <;>
      simp only [getApiDates, formatDate, effectiveDate] <;>
        split_ifs with h <;> simp [Prod.ext_iff] <;> omega
  refine ⟨hmain, ?_⟩
  intro f t heq
  rw [hmain] at heq
  simp only [Prod.mk.injEq, Option.some.injEq] at heq
  obtain ⟨rfl, rfl⟩ := heq
  exact min_le_max

/-! ### Stats -/

/-- Claim C10 (amended): `getStats` never throws: an absent, unreadable or
unparsable `metadata.json` yields `{total_documents: 0, last_update: null}`;
a parsed file yields its `total_documents` (0 when the field is missing)
and its `processed_at` — except that a missing or empty-string
`processed_at` yields `null` (JS `|| null` treats the empty string as
falsy). -/
theorem C10_stats_fallback :
    getStats MetadataFile.absent = { total_documents := 0, last_update := none } ∧
    getStats MetadataFile.unreadable = { total_documents := 0, last_update := none } ∧
    getStats MetadataFile.unparsable = { total_documents := 0, last_update := none } ∧
    (∀ m, (getStats (MetadataFile.parsed m)).total_documents = m.total_documents.getD 0) ∧
    (∀ m s, m.processed_at = some s → s ≠ "" →
        (getStats (MetadataFile.parsed m)).last_update = some s) ∧
    (∀ m, m.processed_at = none ∨ m.processed_at = some "" →
        (getStats (MetadataFile.parsed m)).last_update = none) := by
  refine ⟨rfl, rfl, rfl, fun m => rfl, ?_, ?_⟩
  · intro m s hm hs
    simp [getStats, jsOrNull, hm, hs, String.isEmpty_iff]
  · intro m hm
    rcases hm with hm | hm <;> simp [getStats, jsOrNull, hm, String.isEmpty_iff]

/-- Counterexample to C10 as stated: a parsed file whose `processed_at`
field is present (the empty string) does not have that value returned —
`getStats` reports `last_update = null` instead of the file's field. -/
theorem C10_empty_processed_at_cex :
    ({ total_documents := some 5, processed_at := some "" } : Metadata).processed_at =
        some "" ∧
    (getStats (MetadataFile.parsed
        { total_documents := some 5, processed_at := some "" })).last_update ≠ some "" := by
  decide

/-! ### The command surface -/

/-- Claim C8 (confirmed): every command invocation — the known commands
`init`, `loadCookies`, `searchDocuments`, `processDateRange`, `getStats`,
`close` and any unknown command alike, whatever the arguments and whether
or not the parser operations throw — prints exactly one JSON object of the
output shape, and every failure object is structured: its `success` is
`false` and it carries an `error` or `message` field. -/
theorem C8_single_output (command : String) (args : Args) (ops : Ops) :
    ∃ o, mainRun command args ops = [o] ∧
      (o.success = false → o.error.isSome = true ∨ o.message.isSome = true) := by
  unfold mainRun
  repeat' split
  all_goals exact ⟨_, rfl, by simp⟩
